import Mathlib

/-!
Verification of the pty package (pseudo-console allocation, process
attachment, and lifecycle synchronization).

The definitions below are a shallow embedding of the Go sources:
pure data transformations become Lean functions, stateful code becomes
explicit state passing, machine integers become Nat/Int, and fallible
calls take their platform results as parameters.  Concurrent executions
that the code serializes through the per-pair mutex are modelled as
sequences of atomic operations.
-/

namespace PtySpec

/-- Error values surfaced by the package.  Sentinels (ErrClosed, ErrNotPty,
ErrUnsupported) are distinct constructors; platform errors carry their
numeric payload; fmt.Errorf wrapping with a sub-error is `wrapped`. -/
inductive GoError where
  | errClosed
  | errNotPty
  | errUnsupported
  | ptyNotSupported
  | exitError (exitCode : Int)
  | errno (code : Nat)
  | wrapped (e : GoError)
deriving DecidableEq, Repr

/-- os.ProcessState as far as the package inspects it: the exit code.
state.Success() is exit code zero. -/
structure ProcessState where
  exitCode : Int
deriving DecidableEq, Repr

/-- Go's (*os.ProcessState).Success(). -/
def ProcessState.success (st : ProcessState) : Bool := st.exitCode == 0

/-- Winsize: rows, cols and pixel fields, all uint16 values. -/
structure Winsize where
  rows : Nat
  cols : Nat
  x : Nat
  y : Nat
deriving DecidableEq, Repr

/-- winerrorFailed from the source: the syscall failed iff the HRESULT,
read as a 32-bit signed integer, is negative. -/
def winerrorFailed (r1 : Int) : Bool := r1 < 0

/-- conPty from the mutex-guarded variant: the console handle plus the four
pipe ends and the closed flag.  Handles and files are tracked by open/valid
booleans; `consoleValid` models `console != windows.InvalidHandle`. -/
structure conPty where
  consoleValid : Bool
  consolerOpen : Bool
  consolewOpen : Bool
  prOpen : Bool
  pwOpen : Bool
  closed : Bool
deriving DecidableEq, Repr, Fintype

/-- A freshly allocated pair: console handle live, all pipe ends open. -/
def openConPty : conPty := ⟨true, true, true, true, true, false⟩

/-- closeConsoleNoLock: if the handle is still valid, issue
ClosePseudoConsole (the Nat result counts the destroy calls); on a failed
HRESULT return the error leaving the handle as is, otherwise invalidate
the handle.  `destroyRet` is the platform call's HRESULT. -/
def closeConsoleNoLock (destroyRet : Int) (p : conPty) :
    conPty × Option GoError × Nat :=
  if p.consoleValid then
    if winerrorFailed destroyRet then
      (p, some (GoError.wrapped (GoError.errno destroyRet.toNat)), 1)
    else
      ({ p with consoleValid := false }, none, 1)
  else
    (p, none, 0)

/-- conPty.Close: under the mutex, return nil at once when already closed;
otherwise close the console (propagating its error without marking the
pair closed), then set closed and close writer ends before reader ends. -/
def conPtyClose (destroyRet : Int) (p : conPty) :
    conPty × Option GoError × Nat :=
  if p.closed then
    (p, none, 0)
  else
    match closeConsoleNoLock destroyRet p with
    | (p', some e, n) => (p', some e, n)
    | (p', none, n) =>
        ({ p' with closed := true, pwOpen := false, consolerOpen := false,
                   consolewOpen := false, prOpen := false }, none, n)

/-- The monitor's final teardown (the deferred block of waitInternal):
under the same mutex it runs closeConsoleNoLock only. -/
def monitorTeardown (destroyRet : Int) (p : conPty) :
    conPty × Option GoError × Nat :=
  closeConsoleNoLock destroyRet p

/-- The two teardown-relevant operations serialized by the per-pair mutex. -/
inductive LifecycleOp where
  | close
  | teardown
deriving DecidableEq, Repr

/-- One serialized lifecycle operation with a succeeding platform destroy
(HRESULT 0, S_OK); yields the new state and the destroy-call count. -/
def lifecycleStep (p : conPty) : LifecycleOp → conPty × Nat
  | LifecycleOp.close =>
      match conPtyClose 0 p with
      | (p', _, n) => (p', n)
  | LifecycleOp.teardown =>
      match monitorTeardown 0 p with
      | (p', _, n) => (p', n)

/-- Run a serialized sequence of Close / monitor-teardown operations,
accumulating the total number of platform destroy calls. -/
def runLifecycle : conPty → List LifecycleOp → conPty × Nat
  | p, [] => (p, 0)
  | p, op :: ops =>
      match lifecycleStep p op with
      | (p', n) =>
          match runLifecycle p' ops with
          | (q, m) => (q, n + m)

/-- setsize from the mutex-guarded variant: under the mutex, fail with
ErrClosed when the pair is closed or the handle invalidated; otherwise
issue ResizePseudoConsole, returning the call's lastErr when the HRESULT
is not S_OK.  The Nat counts resize calls issued. -/
def setsize (p : conPty) (_size : Winsize) (resizeRet : Int)
    (callErr : GoError) : Option GoError × Nat :=
  if p.closed || !p.consoleValid then
    (some GoError.errClosed, 0)
  else if resizeRet != 0 then
    (some callErr, 1)
  else
    (none, 1)

/-- The console window rectangle returned by GetConsoleScreenBufferInfo. -/
structure ConsoleScreenBufferInfo where
  left : Int
  top : Int
  right : Int
  bottom : Int
deriving DecidableEq, Repr

/-- Go's uint16 conversion of an int. -/
def intToUInt16 (n : Int) : Nat := (n % 65536).toNat

/-- getsizeFull: under the mutex, ErrClosed on closed or invalid handle;
otherwise derive rows/cols from the visible window rectangle. -/
def getsizeFull (p : conPty)
    (info : Except GoError ConsoleScreenBufferInfo) :
    Except GoError Winsize :=
  if p.closed || !p.consoleValid then
    Except.error GoError.errClosed
  else
    match info with
    | Except.error e => Except.error e
    | Except.ok i =>
        Except.ok ⟨intToUInt16 (i.bottom - i.top + 1),
                   intToUInt16 (i.right - i.left + 1), 0, 0⟩

/-- The dynamic value behind the File interface: either a *conFile wrapping
a conPty (master or tty side) or some unrelated File implementation. -/
inductive FileVal where
  | conF (master : Bool) (p : conPty)
  | plain (fd : Nat)
deriving DecidableEq, Repr

/-- Setsize: type-assert the argument to *conFile, failing with ErrNotPty,
then resize through the shared conPty. -/
def Setsize (f : FileVal) (size : Winsize) (resizeRet : Int)
    (callErr : GoError) : Option GoError :=
  match f with
  | FileVal.conF _ p => (setsize p size resizeRet callErr).1
  | FileVal.plain _ => some GoError.errNotPty

/-- GetsizeFull: type-assert the argument to *conFile, failing with
ErrUnsupported, then query through the shared conPty. -/
def GetsizeFull (f : FileVal)
    (info : Except GoError ConsoleScreenBufferInfo) :
    Except GoError Winsize :=
  match f with
  | FileVal.conF _ p => getsizeFull p info
  | FileVal.plain _ => Except.error GoError.errUnsupported

/-- Which of the two awaited events becomes ready first for the
cancellation watcher's select: process completion or context done. -/
inductive FirstEvent where
  | procDone
  | ctxDone
deriving DecidableEq, Repr

/-- The state the cancellation watcher can touch: the pair and whether
Kill has been requested on the process. -/
structure KillWatchState where
  pty : conPty
  procKilled : Bool
deriving DecidableEq, Repr

/-- killOnContext: wait for either the process's completion signal or the
context; on completion return, on context cancellation call Kill only. -/
def killOnContext (e : FirstEvent) (s : KillWatchState) : KillWatchState :=
  match e with
  | FirstEvent.procDone => s
  | FirstEvent.ctxDone => { s with procKilled := true }

/-- The lazily loaded conPty variant used by the windowsProcess monitor:
only the console handle's validity matters to the closer. -/
structure conPtyV1 where
  handleValid : Bool
deriving DecidableEq, Repr, Fintype

/-- The result of an x/sys LazyProc.Call: the primary return value and
lastErr.  Per the library's documentation the returned error is always
non-nil (constructed from GetLastError), so lastErr is not optional. -/
structure ProcCallResult where
  r1 : Int
  lastErr : GoError
deriving DecidableEq, Repr

/-- winPtyConsoleCloser: when the handle is valid, resolve the
ClosePseudoConsole entry point (propagating a lookup failure), call it,
invalidate the handle, and return the call's lastErr unconditionally. -/
def winPtyConsoleCloser (findErr : Option GoError) (call : ProcCallResult)
    (p : conPtyV1) : conPtyV1 × Option GoError :=
  if p.handleValid then
    match findErr with
    | some e => (p, some e)
    | none => (⟨false⟩, some call.lastErr)
  else
    (p, none)

/-- windowsProcess: the one-shot completion channel, the stored outcome,
and a count of underlying os.Process.Wait calls issued on its behalf. -/
structure windowsProcess where
  cmdDone : Bool
  cmdErr : Option GoError
  osWaitCalls : Nat
deriving DecidableEq, Repr

/-- The monitor state created by Start, before the waiter has run. -/
def initWindowsProcess : windowsProcess := ⟨false, none, 0⟩

/-- windowsProcess.waitProcess, the monitor body: issue the single
os.Process.Wait (counted), derive cmdErr (the wait error, else an exit
error when the state is unsuccessful), then run the deferred console
closer — whose error fills cmdErr only when cmdErr is still nil — and
finally close cmdDone. -/
def waitProcess (wp : windowsProcess) (pty : conPtyV1)
    (waitRes : Except GoError ProcessState) (findErr : Option GoError)
    (call : ProcCallResult) : windowsProcess × conPtyV1 :=
  let cmdErr : Option GoError :=
    match waitRes with
    | Except.error e => some e
    | Except.ok st =>
        if st.success then none else some (GoError.exitError st.exitCode)
  let closed := winPtyConsoleCloser findErr call pty
  let cmdErr :=
    match cmdErr with
    | some e => some e
    | none => closed.2
  ({ cmdDone := true, cmdErr := cmdErr,
     osWaitCalls := wp.osWaitCalls + 1 }, closed.1)

/-- windowsProcess.Wait: block on cmdDone, then read the stored cmdErr. -/
def windowsProcessWait (wp : windowsProcess) : Option GoError := wp.cmdErr

/-- Outcome of the pipe-console start path in run_windows.go: whether the
returned File is the pty, the returned error, and whether the pty was
closed before returning. -/
structure StartOutcome where
  returnsPty : Bool
  err : Option GoError
  ptyClosed : Bool
deriving DecidableEq, Repr

/-- The first failing start option's error, options being applied in
order until one fails. -/
def firstOptErr : List (Option GoError) → Option GoError
  | [] => none
  | none :: rest => firstOptErr rest
  | some e :: _ => some e

/-- start (windows variant): open the pair; apply options, returning the
pty together with the first option error (the cleanup defer is installed
only after the loop); then run windowExecCmd.Start, closing the pty via
the defer when it fails. -/
def startWindows (openErr : Option GoError) (optErrs : List (Option GoError))
    (wStartErr : Option GoError) : StartOutcome :=
  match openErr with
  | some e => ⟨false, some e, false⟩
  | none =>
      match firstOptErr optErrs with
      | some e => ⟨true, some e, false⟩
      | none =>
          match wStartErr with
          | some e => ⟨false, some e, true⟩
          | none => ⟨true, none, false⟩

/-- Outcome of the unix start path: additionally tracks the tty side. -/
structure UnixStartOutcome where
  returnsPty : Bool
  err : Option GoError
  ptyClosed : Bool
  ttyClosed : Bool
deriving DecidableEq, Repr

/-- start (unix variant): open pty and tty; apply options, returning the
pty with the first option error before the deferred tty close is
installed; then wire stdio and run c.Start, closing the pty on its error,
with the deferred tty close running on both remaining paths. -/
def startUnix (openErr : Option GoError) (optErrs : List (Option GoError))
    (cStartErr : Option GoError) : UnixStartOutcome :=
  match openErr with
  | some e => ⟨false, some e, false, false⟩
  | none =>
      match firstOptErr optErrs with
      | some e => ⟨true, some e, false, false⟩
      | none =>
          match cStartErr with
          | some e => ⟨false, some e, true, true⟩
          | none => ⟨true, none, false, true⟩

/-- Outcome of StartWithAttrs: which of the five allocator resources were
closed before returning (master pipes pr/pw, console handle, console-side
pipe ends consoler/consolew). -/
structure AttrsStartOutcome where
  returnsPty : Bool
  err : Option GoError
  prClosed : Bool
  pwClosed : Bool
  consoleClosed : Bool
  consolerClosed : Bool
  consolewClosed : Bool
deriving DecidableEq, Repr

/-- StartWithAttrs: open a fresh pair via openPty; a cleanup defer closes
ptyf only when the outer err is non-nil, but openPty's failure has already
returned by then and both later failure sites rebind err with a shadowing
`if err :=` declaration, so the outer err stays nil and the deferred close
never runs: a resize (setsize on the fresh pair) or spawn (conPty.start)
failure returns the error with no resource closed and no File returned. -/
def startWithAttrs (openErr : Option GoError) (sz : Option Winsize)
    (resizeRet : Int) (resizeCallErr : GoError)
    (startErr : Option GoError) : AttrsStartOutcome :=
  match openErr with
  | some e => ⟨false, some e, false, false, false, false, false⟩
  | none =>
      let szErr : Option GoError :=
        match sz with
        | none => none
        | some s => (setsize openConPty s resizeRet resizeCallErr).1
      match szErr with
      | some e => ⟨false, some e, false, false, false, false, false⟩
      | none =>
          match startErr with
          | some e => ⟨false, some e, false, false, false, false, false⟩
          | none => ⟨true, none, false, false, false, false, false⟩

/-- Resource outcome of the allocator variant with explicit post-creation
pipe closes: success flag, error, and which resources remain open. -/
structure OpenOutcome where
  ok : Bool
  err : Option GoError
  prOpen : Bool
  consolewOpen : Bool
  consolerOpen : Bool
  pwOpen : Bool
  consoleOpen : Bool
deriving DecidableEq, Repr

/-- open (the variant with post-creation closes of the console-side pipe
ends): create two pipes, then the pseudo console; on a pipe or console
creation failure close everything opened so far; after a successful
creation close consoleW then consoleR, and on either close failing return
a wrapped error leaving the remaining resources open.  A failed close
still consumes its own file. -/
def openPtyPair (pipe1Err pipe2Err createErr closeWErr closeRErr :
    Option GoError) : OpenOutcome :=
  match pipe1Err with
  | some e => ⟨false, some e, false, false, false, false, false⟩
  | none =>
      match pipe2Err with
      | some e => ⟨false, some e, false, false, false, false, false⟩
      | none =>
          match createErr with
          | some e => ⟨false, some e, false, false, false, false, false⟩
          | none =>
              match closeWErr with
              | some e =>
                  ⟨false, some (GoError.wrapped e), true, false, true, true,
                   true⟩
              | none =>
                  match closeRErr with
                  | some e =>
                      ⟨false, some (GoError.wrapped e), true, false, false,
                       true, true⟩
                  | none => ⟨true, none, true, false, false, true, true⟩

/-- The host OS version as reported by RtlGetVersion. -/
structure OSVersion where
  major : Nat
  build : Nat
deriving DecidableEq, Repr

/-- State threaded through allocation calls: how many RtlGetVersion
probes have been executed. -/
structure AllocProbeState where
  probes : Nat
deriving DecidableEq, Repr

/-- openPty (the version-gated variant): execute the RtlGetVersion probe,
reject hosts below Windows 10 build 17763, then create the two pipes and
the pseudo console, wrapping a non-S_OK creation result. -/
def openPtyGated (v : OSVersion) (pipe1Err pipe2Err : Option GoError)
    (createRet : Int) (createLastErr : GoError) (s : AllocProbeState) :
    AllocProbeState × Option GoError :=
  let s' : AllocProbeState := ⟨s.probes + 1⟩
  if v.major < 10 || v.build < 17763 then
    (s', some GoError.ptyNotSupported)
  else
    match pipe1Err with
    | some e => (s', some e)
    | none =>
        match pipe2Err with
        | some e => (s', some e)
        | none =>
            if createRet != 0 then
              (s', some (GoError.wrapped createLastErr))
            else
              (s', none)

/-- n successive allocator calls with identical platform behavior. -/
def runOpenPtyGated (v : OSVersion) (pipe1Err pipe2Err : Option GoError)
    (createRet : Int) (createLastErr : GoError) :
    Nat → AllocProbeState → AllocProbeState
  | 0, s => s
  | n + 1, s =>
      runOpenPtyGated v pipe1Err pipe2Err createRet createLastErr n
        (openPtyGated v pipe1Err pipe2Err createRet createLastErr s).1

/-- Split a key=value entry at its first '=' over the character list:
none when no '=' occurs (strings.Index(kv, "=") < 0). -/
def splitCharsAtEq : List Char → Option (List Char × List Char)
  | [] => none
  | c :: cs =>
      if c = '=' then some ([], cs)
      else
        match splitCharsAtEq cs with
        | none => none
        | some (k, v) => some (c :: k, v)

/-- The key of an entry: the characters before the first '='. -/
def keyOf (kv : String) : Option String :=
  match splitCharsAtEq kv.data with
  | none => none
  | some (k, _) => some ⟨k⟩

/-- The value of an entry: the characters after the first '='. -/
def valueOf (kv : String) : Option String :=
  match splitCharsAtEq kv.data with
  | none => none
  | some (_, v) => some ⟨v⟩

/-- ASCII lower-casing of one character, as Go's case folding acts on the
ASCII keys involved here. -/
def lowerChar (c : Char) : Char :=
  if 'A' ≤ c ∧ c ≤ 'Z' then Char.ofNat (c.toNat + 32) else c

/-- strings.ToLower, modelled on ASCII characters. -/
def stringsToLower (s : String) : String := ⟨s.data.map lowerChar⟩

/-- strings.EqualFold, modelled as equality after ASCII lower-casing. -/
def stringsEqualFold (a b : String) : Bool :=
  decide (stringsToLower a = stringsToLower b)

/-- The deduplication key of an entry: its key, lower-cased when the
comparison is case-insensitive; none for entries without '='. -/
def dedupKey (caseInsensitive : Bool) (kv : String) : Option String :=
  match keyOf kv with
  | none => none
  | some k => some (if caseInsensitive then stringsToLower k else k)

/-- The loop state of dedupEnvCase: the output slice built so far and the
saw map from key to the index in out holding that key's entry. -/
structure DedupState where
  out : List String
  saw : List (String × Nat)
deriving DecidableEq, Repr

/-- One iteration of dedupEnvCase's loop: entries without '=' are appended
untouched; a key seen before overwrites the entry at its recorded index
(the later occurrence wins, in the earlier position); a fresh key is
recorded and its entry appended. -/
def dedupStep (ci : Bool) (s : DedupState) (kv : String) : DedupState :=
  match dedupKey ci kv with
  | none => ⟨s.out ++ [kv], s.saw⟩
  | some k =>
      match s.saw.lookup k with
      | some dupIdx => ⟨s.out.set dupIdx kv, s.saw⟩
      | none => ⟨s.out ++ [kv], (k, s.out.length) :: s.saw⟩

/-- The loop of dedupEnvCase over the input entries. -/
def dedupGo (ci : Bool) : DedupState → List String → DedupState
  | s, [] => s
  | s, kv :: rest => dedupGo ci (dedupStep ci s kv) rest

/-- dedupEnvCase: deduplicate environment entries by key, ignoring key
case when caseInsensitive is set, later occurrences winning. -/
def dedupEnvCase (ci : Bool) (env : List String) : List String :=
  (dedupGo ci ⟨[], []⟩ env).out

/-- Whether some entry's key already equals SYSTEMROOT case-insensitively
(the loop of addCriticalEnv). -/
def hasSystemRoot : List String → Bool
  | [] => false
  | kv :: rest =>
      match keyOf kv with
      | none => hasSystemRoot rest
      | some k =>
          if stringsEqualFold k "SYSTEMROOT" then true
          else hasSystemRoot rest

/-- addCriticalEnv: return the entries unchanged when a SYSTEMROOT key is
present, otherwise synthesize one from the host environment's value. -/
def addCriticalEnv (systemRoot : String) (env : List String) :
    List String :=
  if hasSystemRoot env then env
  else env ++ ["SYSTEMROOT=" ++ systemRoot]

/-- The entries of a list whose deduplication key (case-insensitive) is
exactly k. -/
def keyFilter (k : String) (l : List String) : List String :=
  l.filter (fun kv => decide (dedupKey true kv = some k))

/-- Whether an entry's key compares case-insensitively equal to k. -/
def foldKeyPred (k kv : String) : Bool :=
  match keyOf kv with
  | none => false
  | some k' => stringsEqualFold k' k

/-- The entries of a list whose key compares case-insensitively equal
to k (the claim's notion of containing an entry for a key). -/
def foldKeyFilter (k : String) (l : List String) : List String :=
  l.filter (foldKeyPred k)

-- Positional helper lemmas about filtering.

/-- A list none of whose positions satisfies p filters to nil. -/
lemma filter_eq_nil_of_pos {α : Type} (p : α → Bool) (l : List α)
    (h : ∀ (j : Nat) (a : α), l[j]? = some a → p a = false) :
    l.filter p = [] := by
  induction l with
  | nil => rfl
  | cons b t ih =>
      have hb : p b = false := h 0 b (by simp)
      have ht : t.filter p = [] :=
        ih (fun j a hj => h (j + 1) a (by simpa using hj))
      simp [List.filter_cons, hb, ht]

/-- A list whose unique p-position is i filters to the singleton of the
element there. -/
lemma filter_eq_singleton_of_unique {α : Type} (p : α → Bool) :
    ∀ (l : List α) (i : Nat) (a₀ : α), l[i]? = some a₀ → p a₀ = true →
      (∀ (j : Nat) (a : α), l[j]? = some a → p a = true → j = i) →
      l.filter p = [a₀] := by
  intro l
  induction l with
  | nil => intro i a₀ h; simp at h
  | cons b t ih =>
      intro i a₀ hi hp huniq
      cases i with
      | zero =>
          have hb : b = a₀ := by simpa using hi
          subst hb
          have ht : t.filter p = [] := by
            apply filter_eq_nil_of_pos
            intro j a hj
            cases hpa : p a with
            | false => rfl
            | true =>
                have := huniq (j + 1) a (by simpa using hj) hpa
                simp at this
          simp [List.filter_cons, hp, ht]
      | succ i' =>
          have hb : p b = false := by
            cases hpb : p b with
            | false => rfl
            | true =>
                have h0 := huniq 0 b (by simp) hpb
                simp at h0
          have ht := ih i' a₀ (by simpa using hi) hp
            (fun j a hj hpa => by
              have := huniq (j + 1) a (by simpa using hj) hpa
              omega)
          simp [List.filter_cons, hb, ht]

/-- Setting a position whose old and new elements both fail p does not
change the filtered list. -/
lemma filter_set_of_neg {α : Type} (p : α → Bool) :
    ∀ (l : List α) (i : Nat) (a : α), p a = false →
      (∀ a₀, l[i]? = some a₀ → p a₀ = false) →
      (l.set i a).filter p = l.filter p := by
  intro l
  induction l with
  | nil => intro i a _ _; rfl
  | cons b t ih =>
      intro i a hpa hold
      cases i with
      | zero =>
          have hb : p b = false := hold b (by simp)
          simp [List.filter_cons, hpa, hb]
      | succ i' =>
          have ht := ih i' a hpa (fun a₀ h₀ => hold a₀ (by simpa using h₀))
          cases hpb : p b <;> simp [List.filter_cons, hpb, ht]

/-- Indexing into a list extended by one element. -/
lemma get?_append_single {α : Type} (l : List α) (a : α) (j : Nat) :
    (l ++ [a])[j]? =
      if j < l.length then l[j]?
      else if j = l.length then some a else none := by
  by_cases h : j < l.length
  · rw [List.getElem?_append_left h]
    simp [h]
  · rw [List.getElem?_append_right (Nat.le_of_not_lt h)]
    by_cases h2 : j = l.length
    · subst h2
      simp
    · cases hnn : j - l.length with
      | zero => omega
      | succ m => simp [h, h2, hnn]

-- The loop invariant of dedupEnvCase: the saw map records, for each
-- deduplication key, the unique index in out holding that key's entry.

/-- The saw map and the out slice agree: every recorded key points at an
entry with that key, and every entry's key is recorded at its index. -/
def SawInv (s : DedupState) : Prop :=
  (∀ k i, s.saw.lookup k = some i →
      ∃ kv, s.out[i]? = some kv ∧ dedupKey true kv = some k) ∧
  (∀ j kv k, s.out[j]? = some kv → dedupKey true kv = some k →
      s.saw.lookup k = some j)

/-- A key absent from saw filters out to nothing. -/
lemma keyFilter_nil_of_lookup_none (s : DedupState) (h : SawInv s)
    (k : String) (hk : s.saw.lookup k = none) : keyFilter k s.out = [] := by
  apply filter_eq_nil_of_pos
  intro j a hj
  by_cases hd : dedupKey true a = some k
  · have hcontra := h.2 j a k hj hd
    rw [hk] at hcontra
    cases hcontra
  · simp [hd]

/-- A key recorded in saw filters out to exactly the entry at its index. -/
lemma keyFilter_singleton_of_lookup (s : DedupState) (h : SawInv s)
    (k : String) (i : Nat) (hk : s.saw.lookup k = some i) :
    ∃ kv, s.out[i]? = some kv ∧ dedupKey true kv = some k ∧
      keyFilter k s.out = [kv] := by
  obtain ⟨kv, hkv, hkey⟩ := h.1 k i hk
  refine ⟨kv, hkv, hkey, ?_⟩
  apply filter_eq_singleton_of_unique _ _ i kv hkv (by simp [hkey])
  intro j a hj hpa
  have hd : dedupKey true a = some k := by simpa using hpa
  have h2 := h.2 j a k hj hd
  rw [hk] at h2
  exact (Option.some.inj h2).symm

/-- Effect of one dedup iteration on the entries filtered by key k: the
processed entry's own key now holds exactly that entry, all other keys
are untouched. -/
lemma keyFilter_dedupStep (s : DedupState) (kv k : String) (h : SawInv s) :
    keyFilter k (dedupStep true s kv).out =
      if dedupKey true kv = some k then [kv] else keyFilter k s.out := by
  unfold dedupStep
  cases hkey : dedupKey true kv with
  | none =>
      simp only [hkey]
      have happ : keyFilter k (s.out ++ [kv]) = keyFilter k s.out := by
        unfold keyFilter
        rw [List.filter_append]
        simp [hkey]
      simp [happ]
  | some k₀ =>
      simp only [hkey]
      cases hlook : s.saw.lookup k₀ with
      | none =>
          simp only [hlook]
          by_cases hkk : k₀ = k
          · subst hkk
            have hnil := keyFilter_nil_of_lookup_none s h k₀ hlook
            unfold keyFilter at hnil ⊢
            rw [List.filter_append, hnil]
            simp [hkey]
          · unfold keyFilter
            rw [List.filter_append]
            simp [hkey, hkk, Ne.symm hkk]
      | some i =>
          simp only [hlook]
          obtain ⟨kv₀, hkv₀, hkey₀, hfilt⟩ :=
            keyFilter_singleton_of_lookup s h k₀ i hlook
          have hlen : i < s.out.length := by
            rcases List.getElem?_eq_some_iff.mp hkv₀ with ⟨hlt, _⟩
            exact hlt
          by_cases hkk : k₀ = k
          · subst hkk
            have : keyFilter k₀ (s.out.set i kv) = [kv] := by
              apply filter_eq_singleton_of_unique _ _ i kv
              · rw [List.getElem?_set_self hlen]
              · simp [hkey]
              · intro j a hj hpa
                by_cases hij : i = j
                · exact hij.symm
                · rw [List.getElem?_set_ne hij] at hj
                  have hd : dedupKey true a = some k₀ := by simpa using hpa
                  have h2 := h.2 j a k₀ hj hd
                  rw [hlook] at h2
                  exact (Option.some.inj h2).symm
            simp [this, hkey]
          · have : keyFilter k (s.out.set i kv) = keyFilter k s.out := by
              apply filter_set_of_neg
              · simp [hkey, hkk]
              · intro a₀ h₀
                rw [hkv₀] at h₀
                cases h₀
                simp [hkey₀, hkk]
            simp [this, hkk, Ne.symm hkk]

/-- One dedup iteration preserves the saw/out invariant. -/
lemma sawInv_dedupStep (s : DedupState) (kv : String) (h : SawInv s) :
    SawInv (dedupStep true s kv) := by
  unfold dedupStep
  cases hkey : dedupKey true kv with
  | none =>
      simp only [hkey]
      constructor
      · intro k i hk
        obtain ⟨kv₀, hkv₀, hkey₀⟩ := h.1 k i hk
        have hlen : i < s.out.length := by
          rcases List.getElem?_eq_some_iff.mp hkv₀ with ⟨hlt, _⟩
          exact hlt
        exact ⟨kv₀, by rw [List.getElem?_append_left hlen]; exact hkv₀, hkey₀⟩
      · intro j kv' k hj hd
        rw [get?_append_single] at hj
        by_cases h1 : j < s.out.length
        · rw [if_pos h1] at hj
          exact h.2 j kv' k hj hd
        · rw [if_neg h1] at hj
          by_cases h2 : j = s.out.length
          · rw [if_pos h2] at hj
            cases hj
            rw [hkey] at hd
            cases hd
          · rw [if_neg h2] at hj
            cases hj
  | some k₀ =>
      simp only [hkey]
      cases hlook : s.saw.lookup k₀ with
      | none =>
          simp only [hlook]
          constructor
          · intro k i hk
            rw [List.lookup_cons] at hk
            by_cases hkk : k = k₀
            · have hbeq : (k == k₀) = true := by simp [hkk]
              rw [hbeq] at hk
              cases hk
              refine ⟨kv, ?_, ?_⟩
              · rw [get?_append_single]
                simp
              · rw [hkey, hkk]
            · have hbeq : (k == k₀) = false := by simp [hkk]
              rw [hbeq] at hk
              obtain ⟨kv₀, hkv₀, hkey₀⟩ := h.1 k i hk
              have hlen : i < s.out.length := by
                rcases List.getElem?_eq_some_iff.mp hkv₀ with ⟨hlt, _⟩
                exact hlt
              exact ⟨kv₀, by rw [List.getElem?_append_left hlen]; exact hkv₀,
                hkey₀⟩
          · intro j kv' k hj hd
            rw [get?_append_single] at hj
            by_cases h1 : j < s.out.length
            · rw [if_pos h1] at hj
              have hold := h.2 j kv' k hj hd
              have hkk : ¬ k = k₀ := by
                intro hkk
                rw [hkk, hlook] at hold
                cases hold
              rw [List.lookup_cons]
              have hbeq : (k == k₀) = false := by simp [hkk]
              rw [hbeq]
              exact hold
            · rw [if_neg h1] at hj
              by_cases h2 : j = s.out.length
              · rw [if_pos h2] at hj
                cases hj
                rw [hkey] at hd
                cases hd
                rw [List.lookup_cons]
                simp [h2]
              · rw [if_neg h2] at hj
                cases hj
      | some i =>
          simp only [hlook]
          obtain ⟨kv₀, hkv₀, hkey₀⟩ := h.1 k₀ i hlook
          have hlen : i < s.out.length := by
            rcases List.getElem?_eq_some_iff.mp hkv₀ with ⟨hlt, _⟩
            exact hlt
          constructor
          · intro k i' hk
            by_cases hii : i' = i
            · subst hii
              obtain ⟨kv₁, hkv₁, hkey₁⟩ := h.1 k i' hk
              rw [hkv₀] at hkv₁
              cases hkv₁
              rw [hkey₀] at hkey₁
              cases hkey₁
              refine ⟨kv, ?_, hkey⟩
              rw [List.getElem?_set_self hlen]
            · obtain ⟨kv₁, hkv₁, hkey₁⟩ := h.1 k i' hk
              refine ⟨kv₁, ?_, hkey₁⟩
              rw [List.getElem?_set_ne (fun he => hii he.symm)]
              exact hkv₁
          · intro j kv' k hj hd
            by_cases hij : i = j
            · subst hij
              rw [List.getElem?_set_self hlen] at hj
              cases hj
              rw [hkey] at hd
              cases hd
              exact hlook
            · rw [List.getElem?_set_ne hij] at hj
              exact h.2 j kv' k hj hd

/-- The empty loop state satisfies the invariant. -/
lemma sawInv_init : SawInv ⟨[], []⟩ := by
  constructor
  · intro k i hk
    simp at hk
  · intro j kv k hj hd
    simp at hj

/-- Running the dedup loop over the remaining input: each key's filtered
view ends as the last input entry with that key, or keeps the accumulated
state's view when the key never occurs in the input. -/
lemma keyFilter_dedupGo (k : String) :
    ∀ (env : List String) (s : DedupState), SawInv s →
      keyFilter k (dedupGo true s env).out =
        (match (keyFilter k env).getLast? with
         | none => keyFilter k s.out
         | some kv => [kv]) := by
  intro env
  induction env with
  | nil =>
      intro s _
      simp [dedupGo, keyFilter]
  | cons kv rest ih =>
      intro s hs
      have hstep := keyFilter_dedupStep s kv k hs
      have hinv := sawInv_dedupStep s kv hs
      have hih := ih (dedupStep true s kv) hinv
      show keyFilter k (dedupGo true (dedupStep true s kv) rest).out = _
      rw [hih]
      by_cases hkk : dedupKey true kv = some k
      · rw [if_pos hkk] at hstep
        have hcons : keyFilter k (kv :: rest) = kv :: keyFilter k rest := by
          unfold keyFilter
          simp [List.filter_cons, hkk]
        rw [hcons]
        cases hrest : (keyFilter k rest).getLast? with
        | none =>
            have hnil : keyFilter k rest = [] := by
              cases hfr : keyFilter k rest with
              | nil => rfl
              | cons a t =>
                  rw [hfr] at hrest
                  have : (a :: t).getLast? ≠ none := by
                    cases t <;> simp
                  exact absurd hrest this
            rw [hnil]
            simp [hstep]
        | some w =>
            have hlast : (kv :: keyFilter k rest).getLast? = some w := by
              cases hfr : keyFilter k rest with
              | nil =>
                  rw [hfr] at hrest
                  cases hrest
              | cons a t =>
                  rw [List.getLast?_cons_cons]
                  rw [hfr] at hrest
                  exact hrest
            rw [hlast]
      · rw [if_neg hkk] at hstep
        have hcons : keyFilter k (kv :: rest) = keyFilter k rest := by
          unfold keyFilter
          simp [List.filter_cons, hkk]
        rw [hcons, hstep]

/-- splitCharsAtEq splits at the first '=' when the prefix contains
none. -/
lemma splitCharsAtEq_prefix :
    ∀ (pre : List Char), '=' ∉ pre → ∀ suf,
      splitCharsAtEq (pre ++ '=' :: suf) = some (pre, suf) := by
  intro pre
  induction pre with
  | nil =>
      intro _ suf
      simp [splitCharsAtEq]
  | cons c cs ih =>
      intro hmem suf
      have hc : ¬ c = '=' := by
        intro h
        exact hmem (by simp [h])
      have hcs : '=' ∉ cs := fun h => hmem (List.mem_cons_of_mem _ h)
      simp [splitCharsAtEq, hc, ih hcs suf]

/-- The synthesized SYSTEMROOT entry's key, whatever the host value. -/
lemma keyOf_systemroot (v : String) :
    keyOf ("SYSTEMROOT=" ++ v) = some "SYSTEMROOT" := by
  unfold keyOf
  have hdata : ("SYSTEMROOT=" ++ v).data =
      "SYSTEMROOT".data ++ '=' :: v.data := by
    rw [String.data_append]
    have h1 : "SYSTEMROOT=".data = "SYSTEMROOT".data ++ ['='] := by decide
    rw [h1, List.append_assoc]
    rfl
  rw [hdata, splitCharsAtEq_prefix _ (by decide)]

-- Helper lemmas for the lifecycle run.

/-- Once the console handle is invalid, no later serialized operation issues
a destroy call, and the handle stays invalid. -/
lemma runLifecycle_invalid (ops : List LifecycleOp) :
    ∀ p : conPty, p.consoleValid = false →
      (runLifecycle p ops).2 = 0 ∧
      (runLifecycle p ops).1.consoleValid = false := by
  induction ops with
  | nil => intro p hp; exact ⟨rfl, hp⟩
  | cons op ops ih =>
      intro p hp
      have hstep : (lifecycleStep p op).2 = 0 ∧
          (lifecycleStep p op).1.consoleValid = false := by
        cases op with
        | close =>
            by_cases hc : p.closed
            · simp [lifecycleStep, conPtyClose, hc, hp]
            · simp [lifecycleStep, conPtyClose, closeConsoleNoLock, hc, hp]
        | teardown =>
            simp [lifecycleStep, monitorTeardown, closeConsoleNoLock, hp]
      have ih' := ih (lifecycleStep p op).1 hstep.2
      simp [runLifecycle, hstep.1, ih'.1, ih'.2]

/-- The first serialized operation on a freshly opened pair issues exactly
one destroy call and invalidates the handle. -/
lemma lifecycleStep_open (op : LifecycleOp) :
    (lifecycleStep openConPty op).2 = 1 ∧
    (lifecycleStep openConPty op).1.consoleValid = false := by
  cases op <;> decide

/-- C1: from a freshly opened pair, any nonempty serialized sequence of
Close and monitor-teardown operations (all destroys succeeding) issues
exactly one platform destroy call; a second Close after a Close returns
success immediately with no state change and no destroy call; and a
handle already invalidated is never destroyed again. -/
theorem close_exactly_one_destroy :
    (∀ (op : LifecycleOp) (ops : List LifecycleOp),
        (runLifecycle openConPty (op :: ops)).2 = 1) ∧
    (∀ p : conPty,
        conPtyClose 0 (conPtyClose 0 p).1 = ((conPtyClose 0 p).1, none, 0)) ∧
    (∀ (ret : Int) (p : conPty),
        (closeConsoleNoLock ret { p with consoleValid := false }).2.2 = 0) := by
  refine ⟨?_, ?_, ?_⟩
  · intro op ops
    have h1 := lifecycleStep_open op
    have h2 := runLifecycle_invalid ops (lifecycleStep openConPty op).1 h1.2
    simp [runLifecycle, h1.1, h2.1]
  · intro p
    by_cases hc : p.closed
    · simp [conPtyClose, hc]
    · by_cases hv : p.consoleValid
      · simp [conPtyClose, closeConsoleNoLock, hc, hv, winerrorFailed]
      · simp [conPtyClose, closeConsoleNoLock, hc, hv]
  · intro ret p
    simp [closeConsoleNoLock]

/-- C6: after Close has completed on a pair, setsize fails with ErrClosed
and issues no resize call; and no resize call is ever issued against an
invalidated handle or a closed pair. -/
theorem setsize_after_close_guarded :
    (∀ (p : conPty) (sz : Winsize) (ret : Int) (ce : GoError),
        setsize (conPtyClose 0 p).1 sz ret ce = (some GoError.errClosed, 0)) ∧
    (∀ (p : conPty) (sz : Winsize) (ret : Int) (ce : GoError),
        (setsize { p with consoleValid := false } sz ret ce).2 = 0) ∧
    (∀ (p : conPty) (sz : Winsize) (ret : Int) (ce : GoError),
        (setsize { p with closed := true } sz ret ce).2 = 0) := by
  refine ⟨?_, ?_, ?_⟩
  · intro p sz ret ce
    have hclosed : (conPtyClose 0 p).1.closed = true := by
      by_cases hc : p.closed
      · simp [conPtyClose, hc]
      · by_cases hv : p.consoleValid
        · simp [conPtyClose, closeConsoleNoLock, hc, hv, winerrorFailed]
        · simp [conPtyClose, closeConsoleNoLock, hc, hv]
    simp [setsize, hclosed]
  · intro p sz ret ce
    by_cases hc : p.closed <;> simp [setsize, hc]
  · intro p sz ret ce
    simp [setsize]

/-- C9: a File whose dynamic type is not the console-pty file type is
rejected by Setsize with ErrNotPty but by GetsizeFull with ErrUnsupported,
and those two sentinels are distinct errors. -/
theorem non_pty_sentinels_differ :
    (∀ (fd : Nat) (sz : Winsize) (ret : Int) (ce : GoError),
        Setsize (FileVal.plain fd) sz ret ce = some GoError.errNotPty) ∧
    (∀ (fd : Nat) (info : Except GoError ConsoleScreenBufferInfo),
        GetsizeFull (FileVal.plain fd) info =
          Except.error GoError.errUnsupported) ∧
    GoError.errNotPty ≠ GoError.errUnsupported := by
  refine ⟨?_, ?_, by decide⟩
  · intro fd sz ret ce; rfl
  · intro fd info; rfl

/-- C8: the cancellation watcher is a no-op when the process completed
first; when the context fires first it requests Kill only, and in every
case it leaves the pty pair (pipes and console handle) untouched. -/
theorem killOnContext_kill_only :
    (∀ s : KillWatchState, killOnContext FirstEvent.procDone s = s) ∧
    (∀ (e : FirstEvent) (s : KillWatchState),
        (killOnContext e s).pty = s.pty) ∧
    (∀ s : KillWatchState,
        (killOnContext FirstEvent.ctxDone s).procKilled = true) := by
  refine ⟨fun s => rfl, ?_, fun s => rfl⟩
  intro e s
  cases e <;> rfl

/-- C2: evaluation at the failing input.  For a cleanly exiting process
(exit code 0) with a live console handle, the monitor issues one OS wait,
but the deferred winPtyConsoleCloser returns the platform call's lastErr —
always non-nil per the x/sys contract, here Errno 0, "operation completed
successfully" — and waitProcess stores it into the still-nil cmdErr, so
every Wait returns a non-nil outcome instead of nil on clean exit. -/
theorem wait_clean_exit_stores_closer_err :
    (waitProcess initWindowsProcess ⟨true⟩ (Except.ok ⟨0⟩) none
        ⟨1, GoError.errno 0⟩).1.osWaitCalls = 1 ∧
    windowsProcessWait
        (waitProcess initWindowsProcess ⟨true⟩ (Except.ok ⟨0⟩) none
          ⟨1, GoError.errno 0⟩).1 = some (GoError.errno 0) ∧
    windowsProcessWait
        (waitProcess initWindowsProcess ⟨true⟩ (Except.ok ⟨0⟩) none
          ⟨1, GoError.errno 0⟩).1 ≠ none := by
  refine ⟨rfl, rfl, by decide⟩

/-- C3 counterexample: a failing start option makes start return a non-nil
error, yet the allocated pty is handed back unclosed — refuting that every
pty resource allocated for the attempt is closed before Start returns. -/
theorem start_opt_failure_leaves_pty_open :
    (startWindows none [some (GoError.errno 5)] none).err =
      some (GoError.errno 5) ∧
    (startWindows none [some (GoError.errno 5)] none).ptyClosed = false ∧
    (startWindows none [some (GoError.errno 5)] none).returnsPty = true := by
  refine ⟨rfl, rfl, rfl⟩

/-- Applying k successful options produces no option error. -/
lemma firstOptErr_replicate_none (k : Nat) :
    firstOptErr (List.replicate k none) = none := by
  induction k with
  | zero => rfl
  | succ k ih => simpa [List.replicate, firstOptErr] using ih

/-- The first failing option's error is surfaced. -/
lemma firstOptErr_replicate_some (k : Nat) (e : GoError)
    (rest : List (Option GoError)) :
    firstOptErr (List.replicate k none ++ some e :: rest) = some e := by
  induction k with
  | zero => rfl
  | succ k ih => simpa [List.replicate, firstOptErr] using ih

/-- C3 amended: every post-allocation failure returns a non-nil error; in
the windows and unix start variants a spawn failure closes the pty (the
unix tty too) before returning, while a start-option failure hands the
pty back unclosed to the caller alongside the error; in StartWithAttrs a
resize or spawn failure closes nothing at all, its cleanup defer testing
an outer err variable that both failure sites shadow. -/
theorem start_failure_cleanup_amended :
    (∀ (k : Nat) (e : GoError),
        startWindows none (List.replicate k none) (some e) =
          ⟨false, some e, true⟩) ∧
    (∀ (k : Nat) (e : GoError) (rest : List (Option GoError))
        (ws : Option GoError),
        startWindows none (List.replicate k none ++ some e :: rest) ws =
          ⟨true, some e, false⟩) ∧
    (∀ (k : Nat) (e : GoError),
        startUnix none (List.replicate k none) (some e) =
          ⟨false, some e, true, true⟩) ∧
    (∀ (k : Nat) (e : GoError) (rest : List (Option GoError))
        (cs : Option GoError),
        startUnix none (List.replicate k none ++ some e :: rest) cs =
          ⟨true, some e, false, false⟩) ∧
    (∀ (sz : Option Winsize) (e ce : GoError),
        startWithAttrs none sz 0 ce (some e) =
          ⟨false, some e, false, false, false, false, false⟩) ∧
    (∀ (s : Winsize) (ce : GoError) (ws : Option GoError),
        startWithAttrs none (some s) (-1) ce ws =
          ⟨false, some ce, false, false, false, false, false⟩) := by
  refine ⟨?_, ?_, ?_, ?_, ?_, ?_⟩
  · intro k e
    simp [startWindows, firstOptErr_replicate_none]
  · intro k e rest ws
    simp [startWindows, firstOptErr_replicate_some]
  · intro k e
    simp [startUnix, firstOptErr_replicate_none]
  · intro k e rest cs
    simp [startUnix, firstOptErr_replicate_some]
  · intro sz e ce
    cases sz <;> simp [startWithAttrs, setsize, openConPty]
  · intro s ce ws
    simp [startWithAttrs, setsize, openConPty]

/-- C4 counterexample: when the post-creation close of the temporary
console-side write end fails, open returns an error while the other pipe
ends and the console handle remain open — refuting that every resource
opened before the failing call is closed on any post-creation failure. -/
theorem open_close_failure_leaks :
    (openPtyPair none none none (some (GoError.errno 5)) none).err =
      some (GoError.wrapped (GoError.errno 5)) ∧
    (openPtyPair none none none (some (GoError.errno 5)) none).consoleOpen
      = true ∧
    (openPtyPair none none none (some (GoError.errno 5)) none).prOpen
      = true := by
  refine ⟨rfl, rfl, rfl⟩

/-- C4 amended: a failing second pipe creation or pseudo-console creation
returns an error with every previously opened resource closed; a failure
of either post-creation close of the temporary console-side pipe ends
returns a wrapped error but leaves the master pipe ends and the console
handle open. -/
theorem open_failure_cleanup_amended :
    (∀ (e : GoError) (c w r : Option GoError),
        openPtyPair none (some e) c w r =
          ⟨false, some e, false, false, false, false, false⟩) ∧
    (∀ (e : GoError) (w r : Option GoError),
        openPtyPair none none (some e) w r =
          ⟨false, some e, false, false, false, false, false⟩) ∧
    (∀ (e : GoError) (r : Option GoError),
        openPtyPair none none none (some e) r =
          ⟨false, some (GoError.wrapped e), true, false, true, true, true⟩) ∧
    (∀ e : GoError,
        openPtyPair none none none none (some e) =
          ⟨false, some (GoError.wrapped e), true, false, false, true,
           true⟩) := by
  refine ⟨fun e c w r => rfl, fun e w r => rfl, fun e r => rfl,
    fun e => rfl⟩

/-- C7 counterexample: two allocation calls on a capable host execute two
version probes, not one — the probe result is not cached across calls. -/
theorem version_probe_not_cached :
    (runOpenPtyGated ⟨10, 17763⟩ none none 0 (GoError.errno 0) 2
        ⟨0⟩).probes = 2 ∧
    ¬ (runOpenPtyGated ⟨10, 17763⟩ none none 0 (GoError.errno 0) 2
        ⟨0⟩).probes ≤ 1 := by
  refine ⟨rfl, by decide⟩

/-- Every allocation call executes exactly one RtlGetVersion probe. -/
lemma openPtyGated_probes (v : OSVersion) (p1 p2 : Option GoError)
    (cr : Int) (cl : GoError) (s : AllocProbeState) :
    (openPtyGated v p1 p2 cr cl s).1 = ⟨s.probes + 1⟩ := by
  unfold openPtyGated
  rcases p1 with _ | e₁ <;> rcases p2 with _ | e₂ <;>
    by_cases h : (v.major < 10 || v.build < 17763) = true <;>
      (simp [h]; try split) <;> rfl

/-- C7 amended: the host version probe is re-executed on every allocator
call — after n calls the probe has run n times, never cached. -/
theorem version_probe_every_call (v : OSVersion) (p1 p2 : Option GoError)
    (cr : Int) (cl : GoError) (n : Nat) (s : AllocProbeState) :
    (runOpenPtyGated v p1 p2 cr cl n s).probes = s.probes + n := by
  induction n generalizing s with
  | zero => rfl
  | succ n ih =>
      calc (runOpenPtyGated v p1 p2 cr cl (n + 1) s).probes
          = (runOpenPtyGated v p1 p2 cr cl n
              (openPtyGated v p1 p2 cr cl s).1).probes := rfl
        _ = (openPtyGated v p1 p2 cr cl s).1.probes + n := ih _
        _ = s.probes + (n + 1) := by
            rw [openPtyGated_probes]
            show s.probes + 1 + n = s.probes + (n + 1)
            omega

/-- C5: for the input ["A=1","a=2","B=3"], the forwarded environment
after case-insensitive deduplication and critical-variable synthesis is
exactly ["a=2","B=3","SYSTEMROOT=" ++ systemRoot]: one entry whose key
folds to A with value 2, one entry for B with value 3, and a synthesized
SYSTEMROOT entry since none was present; and in general, for every input
list and key, the deduplicated output contains exactly the last input
entry with that case-insensitive key. -/
theorem env_merge_last_wins (sr : String) :
    (addCriticalEnv sr (dedupEnvCase true ["A=1", "a=2", "B=3"]) =
        ["a=2", "B=3", "SYSTEMROOT=" ++ sr]) ∧
    foldKeyFilter "A"
        (addCriticalEnv sr (dedupEnvCase true ["A=1", "a=2", "B=3"])) =
      ["a=2"] ∧
    foldKeyFilter "B"
        (addCriticalEnv sr (dedupEnvCase true ["A=1", "a=2", "B=3"])) =
      ["B=3"] ∧
    foldKeyFilter "SYSTEMROOT"
        (addCriticalEnv sr (dedupEnvCase true ["A=1", "a=2", "B=3"])) =
      ["SYSTEMROOT=" ++ sr] ∧
    valueOf "a=2" = some "2" ∧
    valueOf "B=3" = some "3" ∧
    (∀ (env : List String) (k : String),
        keyFilter k (dedupEnvCase true env) =
          match (keyFilter k env).getLast? with
          | none => []
          | some kv => [kv]) := by
  have hd : dedupEnvCase true ["A=1", "a=2", "B=3"] = ["a=2", "B=3"] := by
    decide
  have hs : hasSystemRoot ["a=2", "B=3"] = false := by decide
  have hout : addCriticalEnv sr (dedupEnvCase true ["A=1", "a=2", "B=3"]) =
      ["a=2", "B=3", "SYSTEMROOT=" ++ sr] := by
    rw [hd]
    unfold addCriticalEnv
    rw [hs]
    simp
  have hsrA : foldKeyPred "A" ("SYSTEMROOT=" ++ sr) = false := by
    unfold foldKeyPred
    rw [keyOf_systemroot]
    decide
  have hsrB : foldKeyPred "B" ("SYSTEMROOT=" ++ sr) = false := by
    unfold foldKeyPred
    rw [keyOf_systemroot]
    decide
  have hsrS : foldKeyPred "SYSTEMROOT" ("SYSTEMROOT=" ++ sr) = true := by
    unfold foldKeyPred
    rw [keyOf_systemroot]
    decide
  refine ⟨hout, ?_, ?_, ?_, by decide, by decide, ?_⟩
  · rw [hout]
    unfold foldKeyFilter
    simp [List.filter_cons, hsrA,
      show foldKeyPred "A" "a=2" = true from by decide,
      show foldKeyPred "A" "B=3" = false from by decide]
  · rw [hout]
    unfold foldKeyFilter
    simp [List.filter_cons, hsrB,
      show foldKeyPred "B" "a=2" = false from by decide,
      show foldKeyPred "B" "B=3" = true from by decide]
  · rw [hout]
    unfold foldKeyFilter
    simp [List.filter_cons, hsrS,
      show foldKeyPred "SYSTEMROOT" "a=2" = false from by decide,
      show foldKeyPred "SYSTEMROOT" "B=3" = false from by decide]
  · intro env k
    unfold dedupEnvCase
    rw [keyFilter_dedupGo k env ⟨[], []⟩ sawInv_init]
    cases h : (keyFilter k env).getLast? <;> simp [keyFilter]

end PtySpec
